import Mathlib

/-!
Verification of `biryani/datetimeconv.py` (date and time related converters).

The Python module is shallowly embedded: every converter becomes a Lean
function of type `Conv := Int → PyVal → Except PyError (PyVal × Option String)`.
The first argument is the system local-timezone offset (seconds east of UTC,
as a fixed offset), which Python code observes only through
`datetime.date.fromtimestamp` / `datetime.datetime.fromtimestamp` and
`mx.DateTime`'s conversion of an instance to a ticks value.  A returned
`Except.error` models an uncaught Python exception (a hard failure), while
`Except.ok (v, e)` models the module's `(result, error)` pair protocol.

Calendar arithmetic (`calendar.timegm`, the civil-date computations inside
`time.localtime` and `date.fromtimestamp`) is modelled with the standard
proleptic-Gregorian epoch conversions (Hinnant's `days_from_civil` /
`civil_from_days` algorithms), which are proved to be mutually inverse below.
-/

namespace DatetimeConv

/-- A Python runtime exception that the module does not catch. -/
inductive PyError where
  | typeError
  | attributeError
  | valueError
  | overflowError
deriving DecidableEq, Repr

/-- A Python `datetime.date`: a plain (year, month, day) triple.
Python guarantees `1 <= year <= 9999` and in-range month/day for values it
constructs; validity is carried as hypotheses where theorems need it. -/
structure PyDate where
  year : Nat
  month : Nat
  day : Nat
deriving DecidableEq, Repr

/-- A Python `datetime.datetime`: date plus time-of-day, microseconds and an
optional fixed utc-offset (`tzinfo`, in seconds east of UTC; `none` = naive). -/
structure PyDateTime where
  year : Nat
  month : Nat
  day : Nat
  hour : Nat
  minute : Nat
  second : Nat
  microsecond : Nat
  tz : Option Int
deriving DecidableEq, Repr

/-- A dynamically typed Python value, covering the types the converters of
this module touch.  Python `int` and `float` are kept apart because Python 2
division behaves differently on them; floats are modelled as rationals. -/
inductive PyVal where
  | none
  | str (s : String)
  | date (d : PyDate)
  | datetime (dt : PyDateTime)
  | int (n : Int)
  | float (q : Rat)
deriving DecidableEq, Repr

deriving instance DecidableEq for Except

/-- A converter: local-timezone offset (seconds east of UTC), then the value.
Result is either a hard exception or the module's `(result, error)` pair. -/
def Conv : Type := Int → PyVal → Except PyError (PyVal × Option String)

/-- Leap year test of the proleptic Gregorian calendar (as used by Python's
`calendar` module). -/
def isLeap (y : Int) : Bool :=
  decide (y % 4 = 0 ∧ (¬ y % 100 = 0 ∨ y % 400 = 0))

/-- Number of days in month `m` (1-12) of year `y`. -/
def daysInMonth (y : Int) (m : Nat) : Nat :=
  if m = 2 then (if isLeap y then 29 else 28)
  else if m = 4 ∨ m = 6 ∨ m = 9 ∨ m = 11 then 30
  else 31

/-- Day of era (0-145730) at which year-of-era `yoe` (0-399) starts. -/
def doeFromYoe (yoe : Nat) : Nat := 365 * yoe + yoe / 4 - yoe / 100

/-- Year of era (0-399) containing day of era `doe` (0-146096). -/
def yoeFromDoe (doe : Nat) : Nat :=
  (doe - doe / 1460 + doe / 36524 - doe / 146096) / 365

/-- Day of year (0-365) of the civil pair month `m` (1-12), day `d`, counted
from March 1st as in Hinnant's algorithm. -/
def doyOfMonthDay (m d : Nat) : Nat :=
  (153 * (if 2 < m then m - 3 else m + 9) + 2) / 5 + d - 1

/-- Days since the Unix epoch (1970-01-01) of the civil date `(y, m, d)`:
the calendar arithmetic performed by `calendar.timegm` on a time tuple. -/
def daysFromCivil (y : Int) (m d : Nat) : Int :=
  let y' : Int := if m ≤ 2 then y - 1 else y
  y' / 400 * 146097
    + ((doeFromYoe (y' % 400).toNat + doyOfMonthDay m d : Nat) : Int)
    - 719468

/-- Day of year (counted from March 1st) of day-of-era `doe`. -/
def doyFromDoe (doe : Nat) : Nat := doe - doeFromYoe (yoeFromDoe doe)

/-- Shifted month index (0-11, March = 0) of day-of-era `doe`. -/
def mpFromDoe (doe : Nat) : Nat := (5 * doyFromDoe doe + 2) / 153

/-- Day of month (1-31) of day-of-era `doe`. -/
def dayFromDoe (doe : Nat) : Nat :=
  doyFromDoe doe - (153 * mpFromDoe doe + 2) / 5 + 1

/-- Month (1-12) of day-of-era `doe`. -/
def monthFromDoe (doe : Nat) : Nat :=
  if mpFromDoe doe < 10 then mpFromDoe doe + 3 else mpFromDoe doe - 9

/-- Civil date `(y, m, d)` of the day `z` counted from the Unix epoch: the
conversion performed inside `time.localtime` / `date.fromtimestamp`. -/
def civilFromDays (z : Int) : Int × Nat × Nat :=
  let doe : Nat := ((z + 719468) % 146097).toNat
  ((z + 719468) / 146097 * 400 + (yoeFromDoe doe : Int)
     + (if monthFromDoe doe ≤ 2 then 1 else 0),
   monthFromDoe doe, dayFromDoe doe)

/-- Upper bound on the length of month `m`, independent of the year. -/
def monthLen (m : Nat) : Nat :=
  if m = 2 then 29
  else if m = 4 ∨ m = 6 ∨ m = 9 ∨ m = 11 then 30
  else 31

/-- Civil date and time-of-day of the instant `E` (epoch seconds). -/
def civilFromSecs (E : Int) : (Int × Nat × Nat) × Nat × Nat × Nat :=
  (civilFromDays (E / 86400),
   (E % 86400).toNat / 3600, (E % 86400).toNat % 3600 / 60,
   (E % 86400).toNat % 60)

/-- `calendar.timegm` applied to the time tuple of a `datetime.date`:
epoch seconds of midnight UTC of that date. -/
def timegmOfDate (d : PyDate) : Int :=
  daysFromCivil (d.year : Int) d.month d.day * 86400

/-- `calendar.timegm` applied to the time tuple of a `datetime.datetime`:
epoch seconds of its calendar fields read as UTC (microseconds dropped,
the tzinfo attribute ignored, exactly as `timetuple()` drops both). -/
def timegmOfDateTime (dt : PyDateTime) : Int :=
  daysFromCivil (dt.year : Int) dt.month dt.day * 86400
    + ((dt.hour * 3600 + dt.minute * 60 + dt.second : Nat) : Int)

/-- One right-to-left pass removing every blank that sits in a run of blanks
directly before the character `c`: the fixpoint semantics of the Python loop
`while u' ' + c in value: value = value.replace(u' ' + c, c)`, which
repeatedly replaces the two-character pattern until it no longer occurs. -/
def squash (c : Char) : List Char → List Char
  | [] => []
  | a :: rest =>
    if a = ' ' ∧ (squash c rest).head? = some c then squash c rest
    else a :: squash c rest

/-- The space-collapsing preprocessing of `clean_iso8601_to_date` and
`clean_iso8601_to_datetime`: run the `' +'` replacement loop to its fixpoint,
then the `' -'` replacement loop (lines 97-100 and 143-146 of the source). -/
def collapse (s : String) : String :=
  String.mk (squash '-' (squash '+' s.data))

/-- Whether the two-character pattern blank-then-`c` occurs in `l`
(the Python substring test `u' ' + c in value`). -/
def hasSpaceBefore (c : Char) : List Char → Bool
  | a :: b :: rest => (a = ' ' && b = c) || hasSpaceBefore c (b :: rest)
  | _ => false

/-- Numeric value of an ASCII decimal digit. -/
def digitVal (c : Char) : Option Nat :=
  if c.isDigit then some (c.toNat - 48) else Option.none

/-- Two-digit number read from two characters. -/
def read2 (a b : Char) : Option Nat := do
  let x ← digitVal a
  let y ← digitVal b
  pure (10 * x + y)

/-- The calendar fields denoted by an ISO 8601 string: date, time-of-day and
UTC offset (seconds east of UTC). -/
structure IsoFields where
  year : Nat
  month : Nat
  day : Nat
  hour : Nat
  minute : Nat
  second : Nat
  offset : Int
deriving DecidableEq, Repr

/-- Trailing UTC offset `±HH:MM` (directly concatenated, as the collapsing
pass guarantees); an empty rest means offset zero. -/
def parseOffset : List Char → Option Int
  | [] => some 0
  | sign :: a :: b :: ':' :: c :: d :: [] => do
      let hh ← read2 a b
      let mm ← read2 c d
      if hh ≤ 23 ∧ mm ≤ 59 then
        if sign = '+' then some ((hh * 3600 + mm * 60 : Nat) : Int)
        else if sign = '-' then some (-((hh * 3600 + mm * 60 : Nat) : Int))
        else Option.none
      else Option.none
  | _ => Option.none

/-- Time-of-day `HH:MM:SS` followed by an optional UTC offset. -/
def parseTime (l : List Char) : Option (Nat × Nat × Nat × Int) :=
  match l with
  | a :: b :: ':' :: c :: d :: ':' :: e :: f :: rest => do
      let hh ← read2 a b
      let mi ← read2 c d
      let ss ← read2 e f
      if hh ≤ 23 ∧ mi ≤ 59 ∧ ss ≤ 59 then
        (parseOffset rest).map fun off => (hh, mi, ss, off)
      else Option.none
  | _ => Option.none

/-- Drop one optional date separator. -/
def dropDash : List Char → List Char
  | '-' :: rest => rest
  | l => l

/-- The tolerant ISO 8601 grammar of spec section 4.2: a four-digit year,
two-digit month and day with optional `-` separators, an optional time
component introduced by a blank or `T`, and an optional UTC offset. -/
def parseFields (l : List Char) : Option IsoFields :=
  match l with
  | y1 :: y2 :: y3 :: y4 :: rest => do
      let a ← digitVal y1
      let b ← digitVal y2
      let c ← digitVal y3
      let d ← digitVal y4
      let y := 1000 * a + 100 * b + 10 * c + d
      match dropDash rest with
      | m1 :: m2 :: rest2 => do
          let mo ← read2 m1 m2
          match dropDash rest2 with
          | d1 :: d2 :: rest3 => do
              let dy ← read2 d1 d2
              if 1 ≤ mo ∧ mo ≤ 12 ∧ 1 ≤ dy ∧ dy ≤ daysInMonth (y : Int) mo then
                match rest3 with
                | [] => some ⟨y, mo, dy, 0, 0, 0, 0⟩
                | sep :: t =>
                    if sep = ' ' ∨ sep = 'T' then
                      (parseTime t).map fun (hh, mi, ss, off) =>
                        ⟨y, mo, dy, hh, mi, ss, off⟩
                    else Option.none
              else Option.none
          | _ => Option.none
      | _ => Option.none
  | _ => Option.none

/-- Modelled from the spec: `mx.DateTime.ISO.ParseDateTimeUTC` (an external
library, absent from the sources).  It parses the tolerant ISO 8601 grammar
of spec section 4.2 and normalizes the instant to UTC by subtracting the
offset; the returned mx value is represented by its UTC epoch seconds. -/
def ParseDateTimeUTC (s : String) : Option Int :=
  (parseFields s.data).map fun f =>
    daysFromCivil (f.year : Int) f.month f.day * 86400
      + ((f.hour * 3600 + f.minute * 60 + f.second : Nat) : Int) - f.offset

/-- Conversion of an mx.DateTime value (represented by its UTC epoch seconds)
to a float, as happens inside `datetime.date.fromtimestamp(mx_value)`: the
`ticks()` conversion reads the stored calendar fields as local wall-clock
time, so the local offset `tz` is subtracted from the fields' epoch value.
The result is a whole number of seconds since the parsed grammar carries no
fractional second. -/
def mxTicks (tz : Int) (utcSeconds : Int) : Int := utcSeconds - tz

/-- `datetime.date.fromtimestamp` under local offset `tz`: the local civil
date of the instant `num / den` seconds (an exact fraction, `den` positive);
`none` models the `ValueError` raised when the result falls outside Python's
year range.  The wall-clock time is `num / den + tz`, and its floor is
`(num + tz * den) / den` by euclidean division. -/
def date_fromtimestamp (tz : Int) (num : Int) (den : Nat) : Option PyDate :=
  let day : Int := (num + tz * den) / den / 86400
  let c := civilFromDays day
  if 1 ≤ c.1 ∧ c.1 ≤ 9999 then some ⟨c.1.toNat, c.2.1, c.2.2⟩ else Option.none

/-- `datetime.datetime.fromtimestamp` under local offset `tz`: local civil
date and time of the instant `num / den` seconds, with the fractional part
of a second floored to microseconds; `none` models the out-of-range
`ValueError`. -/
def datetime_fromtimestamp (tz : Int) (num : Int) (den : Nat) :
    Option PyDateTime :=
  let wallNum : Int := num + tz * den
  let sec : Int := wallNum / den
  let micro : Nat := (((wallNum - sec * den) * 1000000) / den).toNat
  let c := civilFromSecs sec
  if 1 ≤ c.1.1 ∧ c.1.1 ≤ 9999 then
    some ⟨c.1.1.toNat, c.1.2.1, c.1.2.2, c.2.1, c.2.2.1, c.2.2.2, micro,
      Option.none⟩
  else Option.none

/-- Error message built by `state._(u'Value must be a date in ISO 8601
format')`; under the default state the translation is the identity. -/
def dateFormatMsg : String := "Value must be a date in ISO 8601 format"

/-- Error message of the datetime parser. -/
def datetimeFormatMsg : String := "Value must be a date-time in ISO 8601 format"

/-- Error message of the timestamp converters. -/
def timestampMsg : String := "Value must be a timestamp"

/-- `clean_iso8601_to_date` (lines 61-104): `None` passes through; on a
string, collapse blanks before `+`/`-`, parse with the mx parser, convert the
result through `date.fromtimestamp`; a `ValueError` from either step yields
the pair (processed string, message).  A non-string, non-`None` value raises
`TypeError` in the `u' +' in value` test. -/
def clean_iso8601_to_date : Conv := fun tz v =>
  match v with
  | .none => .ok (.none, Option.none)
  | .str s =>
      match ParseDateTimeUTC (collapse s) with
      | some utc =>
          match date_fromtimestamp tz (mxTicks tz utc) 1 with
          | some dd => .ok (.date dd, Option.none)
          | Option.none => .ok (.str (collapse s), some dateFormatMsg)
      | Option.none => .ok (.str (collapse s), some dateFormatMsg)
  | _ => .error .typeError

/-- `clean_iso8601_to_datetime` (lines 107-150): as the date version, built
on `datetime.fromtimestamp`. -/
def clean_iso8601_to_datetime : Conv := fun tz v =>
  match v with
  | .none => .ok (.none, Option.none)
  | .str s =>
      match ParseDateTimeUTC (collapse s) with
      | some utc =>
          match datetime_fromtimestamp tz (mxTicks tz utc) 1 with
          | some dt => .ok (.datetime dt, Option.none)
          | Option.none => .ok (.str (collapse s), some datetimeFormatMsg)
      | Option.none => .ok (.str (collapse s), some datetimeFormatMsg)
  | _ => .error .typeError

/-- `date_to_datetime` (lines 153-166): `datetime(value.year, value.month,
value.day)`; a value without those attributes raises `AttributeError`. -/
def date_to_datetime : Conv := fun _ v =>
  match v with
  | .none => .ok (.none, Option.none)
  | .date d =>
      .ok (.datetime ⟨d.year, d.month, d.day, 0, 0, 0, 0, Option.none⟩,
        Option.none)
  | .datetime dt =>
      .ok (.datetime ⟨dt.year, dt.month, dt.day, 0, 0, 0, 0, Option.none⟩,
        Option.none)
  | _ => .error .attributeError

/-- Digit character of a value 0-9 (as produced by `strftime`). -/
def digitChar : Nat → Char
  | 0 => '0' | 1 => '1' | 2 => '2' | 3 => '3' | 4 => '4'
  | 5 => '5' | 6 => '6' | 7 => '7' | 8 => '8' | 9 => '9'
  | _ => '?'

/-- `value.strftime('%Y-%m-%d')` for an in-range date: four-digit zero-padded
year, two-digit zero-padded month and day. -/
def fmtDate (y m d : Nat) : String :=
  String.mk [digitChar (y / 1000 % 10), digitChar (y / 100 % 10),
    digitChar (y / 10 % 10), digitChar (y % 10), '-',
    digitChar (m / 10 % 10), digitChar (m % 10), '-',
    digitChar (d / 10 % 10), digitChar (d % 10)]

/-- `value.strftime('%Y-%m-%d %H:%M:%S')` for an in-range datetime. -/
def fmtDateTime (y m d hh mi ss : Nat) : String :=
  String.mk [digitChar (y / 1000 % 10), digitChar (y / 100 % 10),
    digitChar (y / 10 % 10), digitChar (y % 10), '-',
    digitChar (m / 10 % 10), digitChar (m % 10), '-',
    digitChar (d / 10 % 10), digitChar (d % 10), ' ',
    digitChar (hh / 10 % 10), digitChar (hh % 10), ':',
    digitChar (mi / 10 % 10), digitChar (mi % 10), ':',
    digitChar (ss / 10 % 10), digitChar (ss % 10)]

/-- `date_to_iso8601` (lines 169-181): `unicode(value.strftime('%Y-%m-%d'))`.
Python 2's `strftime` raises `ValueError` for years before 1900. -/
def date_to_iso8601 : Conv := fun _ v =>
  match v with
  | .none => .ok (.none, Option.none)
  | .date d =>
      if d.year < 1900 then .error .valueError
      else .ok (.str (fmtDate d.year d.month d.day), Option.none)
  | .datetime dt =>
      if dt.year < 1900 then .error .valueError
      else .ok (.str (fmtDate dt.year dt.month dt.day), Option.none)
  | _ => .error .attributeError

/-- `date_to_timestamp` (lines 184-196):
`int(calendar.timegm(value.timetuple()) * 1000)`. -/
def date_to_timestamp : Conv := fun _ v =>
  match v with
  | .none => .ok (.none, Option.none)
  | .date d => .ok (.int (timegmOfDate d * 1000), Option.none)
  | .datetime dt => .ok (.int (timegmOfDateTime dt * 1000), Option.none)
  | _ => .error .attributeError

/-- `datetime_to_date` (lines 199-212): `value.date()`; a bare date (or any
other non-datetime value) has no `date` method, raising `AttributeError`. -/
def datetime_to_date : Conv := fun _ v =>
  match v with
  | .none => .ok (.none, Option.none)
  | .datetime dt => .ok (.date ⟨dt.year, dt.month, dt.day⟩, Option.none)
  | _ => .error .attributeError

/-- `datetime_to_iso8601` (lines 215-227):
`unicode(value.strftime('%Y-%m-%d %H:%M:%S'))`; a bare date renders with
midnight.  Python 2's `strftime` raises `ValueError` before 1900. -/
def datetime_to_iso8601 : Conv := fun _ v =>
  match v with
  | .none => .ok (.none, Option.none)
  | .date d =>
      if d.year < 1900 then .error .valueError
      else .ok (.str (fmtDateTime d.year d.month d.day 0 0 0), Option.none)
  | .datetime dt =>
      if dt.year < 1900 then .error .valueError
      else .ok (.str (fmtDateTime dt.year dt.month dt.day dt.hour dt.minute
        dt.second), Option.none)
  | _ => .error .attributeError

/-- Python subtraction `value -= value.utcoffset()` on an aware datetime:
the calendar fields are shifted by the offset with full normalization (the
`tzinfo` and microseconds are kept); an out-of-range result raises
`OverflowError`. -/
def pyDatetimeSubSeconds (dt : PyDateTime) (off : Int) :
    Except PyError PyDateTime :=
  let c := civilFromSecs (timegmOfDateTime dt - off)
  if 1 ≤ c.1.1 ∧ c.1.1 ≤ 9999 then
    .ok ⟨c.1.1.toNat, c.1.2.1, c.1.2.2, c.2.1, c.2.2.1, c.2.2.2,
      dt.microsecond, dt.tz⟩
  else .error .overflowError

/-- `datetime_to_timestamp` (lines 230-245): a non-datetime delegates to
`date_to_timestamp`; otherwise the utc offset, when present, is subtracted,
and the result is `timegm(timetuple) * 1000 + microsecond / 1000` with
Python 2 floor division on the microseconds. -/
def datetime_to_timestamp : Conv := fun tz v =>
  match v with
  | .datetime dt =>
      match dt.tz with
      | some off =>
          match pyDatetimeSubSeconds dt off with
          | .ok dt' =>
              .ok (.int (timegmOfDateTime dt' * 1000
                + ((dt'.microsecond / 1000 : Nat) : Int)), Option.none)
          | .error e => .error e
      | Option.none =>
          .ok (.int (timegmOfDateTime dt * 1000
            + ((dt.microsecond / 1000 : Nat) : Int)), Option.none)
  | _ => date_to_timestamp tz v

/-- `set_datetime_tzinfo` (lines 248-261): the converter factory returns
`function(lambda value: value.replace(tzinfo = tzinfo))`.  Modelled from the
spec for the wrapper `biryani.baseconv.function` (absent from the sources):
it passes `None` through unchanged and otherwise applies the function.
A non-datetime value raises `TypeError` in `replace`. -/
def set_datetime_tzinfo (tzinfo : Option Int) : Conv := fun _ v =>
  match v with
  | .none => .ok (.none, Option.none)
  | .datetime dt => .ok (.datetime { dt with tz := tzinfo }, Option.none)
  | _ => .error .typeError

/-- `timestamp_to_date` (lines 264-282): `date.fromtimestamp(value / 1000)`;
`ValueError` becomes the pair (value, message); a string input raises
`TypeError` at the division.  A Python 2 `int` divides by 1000 with floor
division, a `float` with true division. -/
def timestamp_to_date : Conv := fun tz v =>
  match v with
  | .none => .ok (.none, Option.none)
  | .int n =>
      match date_fromtimestamp tz (n / 1000) 1 with
      | some dd => .ok (.date dd, Option.none)
      | Option.none => .ok (.int n, some timestampMsg)
  | .float q =>
      match date_fromtimestamp tz q.num (q.den * 1000) with
      | some dd => .ok (.date dd, Option.none)
      | Option.none => .ok (.float q, some timestampMsg)
  | _ => .error .typeError

/-- `timestamp_to_datetime` (lines 285-312): as the date version, through
`datetime.fromtimestamp`; the produced datetime is naive. -/
def timestamp_to_datetime : Conv := fun tz v =>
  match v with
  | .none => .ok (.none, Option.none)
  | .int n =>
      match datetime_fromtimestamp tz (n / 1000) 1 with
      | some dt => .ok (.datetime dt, Option.none)
      | Option.none => .ok (.int n, some timestampMsg)
  | .float q =>
      match datetime_fromtimestamp tz q.num (q.den * 1000) with
      | some dt => .ok (.datetime dt, Option.none)
      | Option.none => .ok (.float q, some timestampMsg)
  | _ => .error .typeError

/-- Blank characters stripped by Python's `unicode.strip()`. -/
def isPySpace (c : Char) : Bool :=
  c = ' ' || c = '\t' || c = '\n' || c = '\r' || c = '\x0b' || c = '\x0c'

/-- Strip blanks from both ends of a character list. -/
def pyStrip (l : List Char) : List Char :=
  ((l.dropWhile isPySpace).reverse.dropWhile isPySpace).reverse

/-- Modelled from the spec: `biryani.baseconv.cleanup_line` (absent from the
sources): strip surrounding whitespace and map an all-blank result to
`None`, never signalling an error (spec sections 4.3 and 6). -/
def cleanup_line : Conv := fun _ v =>
  match v with
  | .none => .ok (.none, Option.none)
  | .str s =>
      match pyStrip s.data with
      | [] => .ok (.none, Option.none)
      | l => .ok (.str (String.mk l), Option.none)
  | _ => .error .attributeError

/-- Modelled from the spec: `biryani.baseconv.pipe` of two converters (absent
from the sources): run the first; if it signals an error, short-circuit,
otherwise feed its result to the second (spec sections 4.3 and 6). -/
def pipe2 (c1 c2 : Conv) : Conv := fun tz v =>
  match c1 tz v with
  | .ok (v1, some e1) => .ok (v1, some e1)
  | .ok (v1, Option.none) => c2 tz v1
  | .error e => .error e

/-- `iso8601_to_date` (line 318): `pipe(cleanup_line, clean_iso8601_to_date)`. -/
def iso8601_to_date : Conv := pipe2 cleanup_line clean_iso8601_to_date

/-- `iso8601_to_datetime` (line 349):
`pipe(cleanup_line, clean_iso8601_to_datetime)`. -/
def iso8601_to_datetime : Conv := pipe2 cleanup_line clean_iso8601_to_datetime

/-- The invariant of a constructed Python `datetime.date`. -/
def ValidDate (d : PyDate) : Prop :=
  1 ≤ d.month ∧ d.month ≤ 12 ∧ 1 ≤ d.day ∧
    d.day ≤ daysInMonth (d.year : Int) d.month ∧ 1 ≤ d.year ∧ d.year ≤ 9999

end DatetimeConv

namespace DatetimeConv

/-- Leap years of year-of-era `yoe`: year `yoe + 1` of the era is leap. -/
def leapYoe (yoe : Nat) : Prop :=
  yoe % 4 = 3 ∧ (yoe % 100 ≠ 99 ∨ yoe = 399)

theorem yoe_recovery (yoe doy : Nat)
    (hy : yoe ≤ 399)
    (hdoy : doy ≤ 364 ∨ (doy = 365 ∧ leapYoe yoe)) :
    yoeFromDoe (doeFromYoe yoe + doy) = yoe := by
  obtain ⟨q, a, b, hqab, hq, ha, hb⟩ :
      ∃ q a b, yoe = 100 * q + 4 * a + b ∧ q ≤ 3 ∧ a ≤ 24 ∧ b ≤ 3 :=
    ⟨yoe / 100, yoe % 100 / 4, yoe % 4, by omega, by omega, by omega, by omega⟩
  simp only [leapYoe] at hdoy
  have hg : doeFromYoe yoe = 36524 * q + 1461 * a + 365 * b := by
    simp only [doeFromYoe]; omega
  have hdoe : doeFromYoe yoe + doy = 36524 * q + 1461 * a + 365 * b + doy := by
    omega
  have hA : (doeFromYoe yoe + doy) / 1460
      = 25 * q + a + (if 1460 ≤ 24 * q + a + 365 * b + doy then 1 else 0) := by
    rw [hdoe]; split <;> omega
  have hB : (doeFromYoe yoe + doy) / 36524
      = q + (if 36524 ≤ 1461 * a + 365 * b + doy then 1 else 0) := by
    rw [hdoe]; split <;> omega
  have hC : (doeFromYoe yoe + doy) / 146096
      = (if 146096 ≤ doeFromYoe yoe + doy then 1 else 0) := by
    rw [hdoe]; split <;> omega
  simp only [yoeFromDoe]
  rw [hA, hB, hC]
  split <;> split <;> split <;> omega

theorem doy_recovery (yoe doy : Nat)
    (hy : yoe ≤ 399)
    (hdoy : doy ≤ 364 ∨ (doy = 365 ∧ leapYoe yoe)) :
    doyFromDoe (doeFromYoe yoe + doy) = doy := by
  rw [doyFromDoe, yoe_recovery yoe doy hy hdoy]
  omega

/-- Every day of era decomposes as a year start plus a valid day of year
(arithmetic form, proved by stepping through the era day by day). -/
theorem doe_decomp_raw : ∀ doe : Nat, doe < 146097 →
    ∃ yoe doy, yoe ≤ 399 ∧
      (doy ≤ 364 ∨ (doy = 365 ∧ yoe % 4 = 3 ∧ (yoe % 100 ≠ 99 ∨ yoe = 399))) ∧
      365 * yoe + yoe / 4 - yoe / 100 + doy = doe
  | 0, _ => ⟨0, 0, by omega, Or.inl (by omega), by omega⟩
  | (n + 1), h =>
    match doe_decomp_raw n (by omega) with
    | ⟨yoe, doy, h1, h2, h3⟩ =>
      if hc : doy + 1 ≤ 364 ∨
          (doy + 1 = 365 ∧ yoe % 4 = 3 ∧ (yoe % 100 ≠ 99 ∨ yoe = 399)) then
        ⟨yoe, doy + 1, h1, hc, by omega⟩
      else
        ⟨yoe + 1, 0, by omega, Or.inl (by omega), by
          obtain ⟨q, a, b, hy, hq, ha, hb⟩ :
              ∃ q a b, yoe = 100 * q + 4 * a + b ∧ q ≤ 3 ∧ a ≤ 24 ∧ b ≤ 3 :=
            ⟨yoe / 100, yoe % 100 / 4, yoe % 4,
              by omega, by omega, by omega, by omega⟩
          subst hy
          interval_cases b <;> omega⟩

/-- Every day of era decomposes as a year start plus a valid day of year. -/
theorem doe_decomp (doe : Nat) (h : doe < 146097) :
    ∃ yoe doy, yoe ≤ 399 ∧ (doy ≤ 364 ∨ (doy = 365 ∧ leapYoe yoe)) ∧
      doeFromYoe yoe + doy = doe := by
  obtain ⟨yoe, doy, h1, h2, h3⟩ := doe_decomp_raw doe h
  exact ⟨yoe, doy, h1, by simpa [leapYoe] using h2,
    by simpa [doeFromYoe] using h3⟩

theorem month_day_recovery (m d : Nat) (yoe : Nat)
    (hy : yoe ≤ 399)
    (hm1 : 1 ≤ m) (hm2 : m ≤ 12) (hd1 : 1 ≤ d) (hd2 : d ≤ monthLen m)
    (hdoy : doyOfMonthDay m d ≤ 364 ∨
      (doyOfMonthDay m d = 365 ∧ leapYoe yoe)) :
    monthFromDoe (doeFromYoe yoe + doyOfMonthDay m d) = m ∧
    dayFromDoe (doeFromYoe yoe + doyOfMonthDay m d) = d := by
  have hrec := doy_recovery yoe (doyOfMonthDay m d) hy hdoy
  simp only [monthFromDoe, mpFromDoe, dayFromDoe]
  rw [hrec]
  simp only [monthLen] at hd2
  interval_cases m <;> (norm_num at hd2 ⊢) <;> interval_cases d <;> decide

theorem daysInMonth_le_monthLen (y : Int) (m : Nat) :
    daysInMonth y m ≤ monthLen m := by
  simp only [daysInMonth, monthLen]
  split_ifs <;> omega

/-- `civilFromDays` is a left inverse of `daysFromCivil` on valid dates. -/
theorem civil_daysFromCivil (y : Int) (m d : Nat)
    (hm1 : 1 ≤ m) (hm2 : m ≤ 12) (hd1 : 1 ≤ d) (hd2 : d ≤ daysInMonth y m) :
    civilFromDays (daysFromCivil y m d) = (y, m, d) := by
  have hlen : d ≤ monthLen m := le_trans hd2 (daysInMonth_le_monthLen y m)
  have h31 : d ≤ 31 := le_trans hlen (by simp only [monthLen]; split_ifs <;> omega)
  obtain ⟨y', hy'⟩ : ∃ y' : Int, y' = if m ≤ 2 then y - 1 else y := ⟨_, rfl⟩
  obtain ⟨era, yoe, hsplit, hyoe, hediv, hemod⟩ :
      ∃ (era : Int) (yoe : Nat), y' = era * 400 + yoe ∧ yoe ≤ 399 ∧
        y' / 400 = era ∧ (y' % 400).toNat = yoe :=
    ⟨y' / 400, (y' % 400).toNat, by omega, by omega, rfl, rfl⟩
  have hdoy : doyOfMonthDay m d ≤ 364 ∨ (doyOfMonthDay m d = 365 ∧ leapYoe yoe) := by
    by_cases hm2' : m = 2
    · subst hm2'
      have hfeb : doyOfMonthDay 2 d = 336 + d := by
        simp only [doyOfMonthDay]; norm_num
      have hdm : d ≤ if isLeap y then 29 else 28 := by
        simpa only [daysInMonth, if_pos] using hd2
      by_cases hd29 : d ≤ 28
      · exact Or.inl (by omega)
      · have hleap : isLeap y = true := by
          by_cases hl : isLeap y
          · exact hl
          · rw [if_neg hl] at hdm; omega
        rw [if_pos hleap] at hdm
        refine Or.inr ⟨by omega, ?_⟩
        simp only [isLeap, decide_eq_true_eq] at hleap
        have hym : y' = y - 1 := by rw [hy']; norm_num
        simp only [leapYoe]
        omega
    · left
      simp only [doyOfMonthDay]
      interval_cases m <;> norm_num <;> omega
  obtain ⟨z, hz⟩ : ∃ z : Int, z = daysFromCivil y m d := ⟨_, rfl⟩
  have hzval : z + 719468
      = era * 146097 + ((doeFromYoe yoe + doyOfMonthDay m d : Nat) : Int) := by
    rw [hz]
    simp only [daysFromCivil]
    rw [← hy', hediv, hemod]
    omega
  have hbound : doeFromYoe yoe + doyOfMonthDay m d ≤ 146096 := by
    have hdoy365 : doyOfMonthDay m d ≤ 365 := by omega
    simp only [doeFromYoe]
    omega
  have h1 : (z + 719468) / 146097 = era := by omega
  have h2 : ((z + 719468) % 146097).toNat
      = doeFromYoe yoe + doyOfMonthDay m d := by omega
  obtain ⟨hm', hd'⟩ := month_day_recovery m d yoe hyoe hm1 hm2 hd1 hlen hdoy
  have hyrec := yoe_recovery yoe (doyOfMonthDay m d) hyoe hdoy
  rw [← hz]
  simp only [civilFromDays]
  rw [h1, h2, hm', hd', hyrec]
  rw [Prod.mk.injEq]
  refine ⟨?_, rfl⟩
  by_cases hm2'' : m ≤ 2
  · rw [if_pos hm2'']
    have hym : y' = y - 1 := by rw [hy', if_pos hm2'']
    omega
  · rw [if_neg hm2'']
    have hym : y' = y := by rw [hy', if_neg hm2'']
    omega

/-- The month/day split of a day of year undoes `doyOfMonthDay`. -/
theorem md_doy_inverse (doe doy : Nat) (hd : doyFromDoe doe = doy)
    (hdoy : doy ≤ 365) :
    doyOfMonthDay (monthFromDoe doe) (dayFromDoe doe) = doy := by
  simp only [monthFromDoe, mpFromDoe, dayFromDoe, doyOfMonthDay, hd]
  generalize hmp : (5 * doy + 2) / 153 = mp
  have hmp11 : mp ≤ 11 := by omega
  interval_cases mp <;> norm_num <;> omega

/-- `daysFromCivil` is a left inverse of `civilFromDays` on every day count. -/
theorem days_civilFromDays (z : Int) :
    daysFromCivil (civilFromDays z).1 (civilFromDays z).2.1
      (civilFromDays z).2.2 = z := by
  obtain ⟨doe, hdoe_def⟩ : ∃ doe : Nat, ((z + 719468) % 146097).toNat = doe :=
    ⟨_, rfl⟩
  obtain ⟨era, hera⟩ : ∃ era : Int, (z + 719468) / 146097 = era := ⟨_, rfl⟩
  have hdoe_lt : doe < 146097 := by omega
  have hz : z + 719468 = era * 146097 + doe := by omega
  obtain ⟨yoe, doy, h1, h2, h3⟩ := doe_decomp doe hdoe_lt
  have hdoy365 : doy ≤ 365 := by rcases h2 with h2' | h2' <;> omega
  have hdoyrec : doyFromDoe doe = doy := by
    rw [← h3]; exact doy_recovery yoe doy h1 h2
  have hyoerec : yoeFromDoe doe = yoe := by
    rw [← h3]; exact yoe_recovery yoe doy h1 h2
  have hmd := md_doy_inverse doe doy hdoyrec hdoy365
  simp only [civilFromDays]
  rw [hdoe_def, hera, hyoerec]
  simp only [daysFromCivil]
  by_cases hM : monthFromDoe doe ≤ 2
  · rw [if_pos hM, if_pos hM]
    have e2 : ((era * 400 + (yoe : Int) + 1 - 1) % 400).toNat = yoe := by omega
    have e1 : (era * 400 + (yoe : Int) + 1 - 1) / 400 = era := by omega
    rw [e1, e2, hmd]
    omega
  · rw [if_neg hM, if_neg hM]
    have e2 : ((era * 400 + (yoe : Int) + 0) % 400).toNat = yoe := by omega
    have e1 : (era * 400 + (yoe : Int) + 0) / 400 = era := by omega
    rw [e1, e2, hmd]
    omega

theorem squash_head (c : Char) (l : List Char) :
    (squash c l).head? = l.head? ∨ (squash c l).head? = some c := by
  induction l with
  | nil => exact Or.inl rfl
  | cons a rest ih =>
      simp only [squash]
      split
      · next h => exact Or.inr h.2
      · exact Or.inl rfl

theorem hasSpaceBefore_cons_eq_false (c a : Char) (l : List Char) :
    hasSpaceBefore c (a :: l) = false ↔
      ¬(a = ' ' ∧ l.head? = some c) ∧ hasSpaceBefore c l = false := by
  cases l with
  | nil => simp [hasSpaceBefore]
  | cons b t =>
      simp only [hasSpaceBefore, List.head?, Bool.or_eq_false_iff,
        Bool.and_eq_false_iff]
      constructor
      · rintro ⟨h1, h2⟩
        refine ⟨?_, h2⟩
        rintro ⟨ha, hb⟩
        rcases h1 with h | h
        · simp [ha] at h
        · simp [Option.some.injEq] at hb
          simp [hb] at h
      · rintro ⟨h1, h2⟩
        refine ⟨?_, h2⟩
        by_cases ha : a = ' '
        · right
          simp only [decide_eq_false_iff_not]
          intro hb
          exact h1 ⟨ha, by rw [hb]⟩
        · left
          simp [ha]

theorem squash_no (c : Char) (l : List Char) :
    hasSpaceBefore c (squash c l) = false := by
  induction l with
  | nil => rfl
  | cons a rest ih =>
      simp only [squash]
      split
      · exact ih
      · next h =>
          rw [hasSpaceBefore_cons_eq_false]
          exact ⟨h, ih⟩

theorem squash_preserve (c c' : Char) (hne : c' ≠ c) (l : List Char)
    (h : hasSpaceBefore c l = false) :
    hasSpaceBefore c (squash c' l) = false := by
  induction l with
  | nil => rfl
  | cons a rest ih =>
      rw [hasSpaceBefore_cons_eq_false] at h
      simp only [squash]
      split
      · exact ih h.2
      · rw [hasSpaceBefore_cons_eq_false]
        refine ⟨?_, ih h.2⟩
        rintro ⟨ha, hhead⟩
        rcases squash_head c' rest with hh | hh
        · exact h.1 ⟨ha, by rw [← hh, hhead]⟩
        · rw [hh] at hhead
          exact hne (Option.some.inj hhead)

theorem squash_eq_self (c : Char) (l : List Char)
    (h : hasSpaceBefore c l = false) : squash c l = l := by
  induction l with
  | nil => rfl
  | cons a rest ih =>
      rw [hasSpaceBefore_cons_eq_false] at h
      simp only [squash]
      rw [ih h.2]
      rw [if_neg h.1]

theorem collapse_eq_self (s : String)
    (hp : hasSpaceBefore '+' s.data = false)
    (hm : hasSpaceBefore '-' s.data = false) : collapse s = s := by
  simp only [collapse]
  rw [squash_eq_self '+' s.data hp, squash_eq_self '-' s.data hm]

theorem collapse_idem (s : String) : collapse (collapse s) = collapse s := by
  have hdata : (collapse s).data = squash '-' (squash '+' s.data) := rfl
  have h1 : hasSpaceBefore '+' (squash '+' s.data) = false := squash_no _ _
  have h2 : hasSpaceBefore '+' (collapse s).data = false := by
    rw [hdata]; exact squash_preserve '+' '-' (by decide) _ h1
  have h3 : hasSpaceBefore '-' (collapse s).data = false := by
    rw [hdata]; exact squash_no _ _
  exact collapse_eq_self _ h2 h3

theorem date_ft_ticks (tz tz' utc : Int) :
    date_fromtimestamp tz (mxTicks tz utc) 1
      = date_fromtimestamp tz' (mxTicks tz' utc) 1 := by
  simp only [date_fromtimestamp, mxTicks]
  have h1 : (utc - tz + tz * ((1 : Nat) : Int)) / ((1 : Nat) : Int) = utc := by
    push_cast; omega
  have h2 : (utc - tz' + tz' * ((1 : Nat) : Int)) / ((1 : Nat) : Int) = utc := by
    push_cast; omega
  rw [h1, h2]

theorem datetime_ft_ticks (tz tz' utc : Int) :
    datetime_fromtimestamp tz (mxTicks tz utc) 1
      = datetime_fromtimestamp tz' (mxTicks tz' utc) 1 := by
  simp only [datetime_fromtimestamp, mxTicks]
  have h1 : (utc - tz + tz * ((1 : Nat) : Int)) / ((1 : Nat) : Int) = utc := by
    push_cast; omega
  have h2 : (utc - tz' + tz' * ((1 : Nat) : Int)) / ((1 : Nat) : Int) = utc := by
    push_cast; omega
  rw [h1, h2]
  have h3 : utc - tz + tz * ((1 : Nat) : Int) - utc * ((1 : Nat) : Int) = 0 := by
    push_cast; ring
  have h4 : utc - tz' + tz' * ((1 : Nat) : Int) - utc * ((1 : Nat) : Int) = 0 := by
    push_cast; ring
  rw [h3, h4]

theorem clean_date_tz (tz tz' : Int) (v : PyVal) :
    clean_iso8601_to_date tz v = clean_iso8601_to_date tz' v := by
  cases v with
  | str s =>
      simp only [clean_iso8601_to_date]
      cases hp : ParseDateTimeUTC (collapse s) with
      | none => rfl
      | some utc => simp only [date_ft_ticks tz tz' utc]
  | _ => rfl

theorem clean_datetime_tz (tz tz' : Int) (v : PyVal) :
    clean_iso8601_to_datetime tz v = clean_iso8601_to_datetime tz' v := by
  cases v with
  | str s =>
      simp only [clean_iso8601_to_datetime]
      cases hp : ParseDateTimeUTC (collapse s) with
      | none => rfl
      | some utc => simp only [datetime_ft_ticks tz tz' utc]
  | _ => rfl

theorem dropWhile_eq_self_of (p : Char → Bool) (l : List Char)
    (h : ∀ c ∈ l, p c = false) : l.dropWhile p = l := by
  cases l with
  | nil => rfl
  | cons a t =>
      rw [List.dropWhile_cons, if_neg]
      simp [h a (by simp)]

theorem dropWhile_eq_nil_of (p : Char → Bool) (l : List Char)
    (h : ∀ c ∈ l, p c = true) : l.dropWhile p = [] := by
  induction l with
  | nil => rfl
  | cons a t ih =>
      rw [List.dropWhile_cons, if_pos (by simp [h a (by simp)])]
      exact ih fun c hc => h c (by simp [hc])

theorem pyStrip_eq_self (l : List Char)
    (h : ∀ c ∈ l, isPySpace c = false) : pyStrip l = l := by
  simp only [pyStrip]
  rw [dropWhile_eq_self_of _ _ h,
    dropWhile_eq_self_of _ _ (fun c hc => h c (List.mem_reverse.mp hc)),
    List.reverse_reverse]

theorem pyStrip_all_space (l : List Char)
    (h : ∀ c ∈ l, isPySpace c = true) : pyStrip l = [] := by
  simp only [pyStrip]
  rw [dropWhile_eq_nil_of _ _ h]
  rfl

theorem timegm_civilFromSecs (E : Int) (h1 : 1 ≤ (civilFromSecs E).1.1)
    (micro : Nat) (tzv : Option Int) :
    timegmOfDateTime ⟨(civilFromSecs E).1.1.toNat, (civilFromSecs E).1.2.1,
      (civilFromSecs E).1.2.2, (civilFromSecs E).2.1, (civilFromSecs E).2.2.1,
      (civilFromSecs E).2.2.2, micro, tzv⟩ = E := by
  simp only [timegmOfDateTime, civilFromSecs] at *
  rw [Int.toNat_of_nonneg (by omega)]
  rw [days_civilFromDays (E / 86400)]
  omega

theorem digitVal_digitChar (k : Nat) (h : k ≤ 9) :
    digitVal (digitChar k) = some k := by
  interval_cases k <;> decide

theorem parse_fmtDate (y m d : Nat) (h1000 : 1000 ≤ y) (h9999 : y ≤ 9999)
    (hm1 : 1 ≤ m) (hm2 : m ≤ 12) (hd1 : 1 ≤ d)
    (hd2 : d ≤ daysInMonth (y : Int) m) :
    parseFields (fmtDate y m d).data = some ⟨y, m, d, 0, 0, 0, 0⟩ := by
  simp only [fmtDate, parseFields, dropDash, read2]
  rw [digitVal_digitChar (y / 1000 % 10) (by omega),
    digitVal_digitChar (y / 100 % 10) (by omega),
    digitVal_digitChar (y / 10 % 10) (by omega),
    digitVal_digitChar (y % 10) (by omega),
    digitVal_digitChar (m / 10 % 10) (by omega),
    digitVal_digitChar (m % 10) (by omega),
    digitVal_digitChar (d / 10 % 10) (by omega),
    digitVal_digitChar (d % 10) (by omega)]
  simp only [Option.bind_eq_bind, Option.some_bind, Option.pure_def]
  have d10 : y / 10 / 10 = y / 100 := by rw [Nat.div_div_eq_div_mul]
  have d100 : y / 100 / 10 = y / 1000 := by rw [Nat.div_div_eq_div_mul]
  have e0 := Nat.div_add_mod y 10
  have e1 := Nat.div_add_mod (y / 10) 10
  have e2 := Nat.div_add_mod (y / 100) 10
  rw [d10] at e1
  rw [d100] at e2
  have e3 : y / 1000 ≤ 9 := by omega
  have hy : 1000 * (y / 1000 % 10) + 100 * (y / 100 % 10) + 10 * (y / 10 % 10)
      + y % 10 = y := by omega
  have hm : 10 * (m / 10 % 10) + m % 10 = m := by omega
  have h31 : d ≤ 31 := le_trans hd2 (le_trans (daysInMonth_le_monthLen _ _)
    (by simp only [monthLen]; split_ifs <;> omega))
  have hd : 10 * (d / 10 % 10) + d % 10 = d := by omega
  rw [hy, hm, hd]
  rw [if_pos ⟨hm1, hm2, hd1, hd2⟩]

theorem digitChar_not_space (k : Nat) :
    isPySpace (digitChar k) = false ∧ digitChar k ≠ ' ' := by
  unfold digitChar
  split <;> decide

theorem fmtDate_no_space (y m d : Nat) :
    ∀ c ∈ (fmtDate y m d).data, isPySpace c = false ∧ c ≠ ' ' := by
  intro c hc
  simp only [fmtDate, List.mem_cons, List.not_mem_nil, or_false] at hc
  rcases hc with rfl | rfl | rfl | rfl | rfl | rfl | rfl | rfl | rfl | rfl
  · exact digitChar_not_space _
  · exact digitChar_not_space _
  · exact digitChar_not_space _
  · exact digitChar_not_space _
  · decide
  · exact digitChar_not_space _
  · exact digitChar_not_space _
  · decide
  · exact digitChar_not_space _
  · exact digitChar_not_space _

theorem hasSpaceBefore_of_no_space (c : Char) (l : List Char)
    (h : ∀ x ∈ l, x ≠ ' ') : hasSpaceBefore c l = false := by
  induction l with
  | nil => rfl
  | cons a t ih =>
      rw [hasSpaceBefore_cons_eq_false]
      exact ⟨fun hx => h a (by simp) hx.1, ih fun x hx => h x (by simp [hx])⟩

/-- Parsing a `strftime`-formatted valid date through the full
`clean_iso8601_to_date` path returns the date, independently of the local
offset. -/
theorem clean_parse_fmtDate (tz : Int) (y m d : Nat)
    (h1900 : 1900 ≤ y) (h9999 : y ≤ 9999)
    (hm1 : 1 ≤ m) (hm2 : m ≤ 12) (hd1 : 1 ≤ d)
    (hd2 : d ≤ daysInMonth (y : Int) m) :
    clean_iso8601_to_date tz (.str (fmtDate y m d))
      = .ok (.date ⟨y, m, d⟩, Option.none) := by
  have hcol : collapse (fmtDate y m d) = fmtDate y m d :=
    collapse_eq_self _
      (hasSpaceBefore_of_no_space _ _ fun x hx => (fmtDate_no_space y m d x hx).2)
      (hasSpaceBefore_of_no_space _ _ fun x hx => (fmtDate_no_space y m d x hx).2)
  have hparse : ParseDateTimeUTC (fmtDate y m d)
      = some (daysFromCivil (y : Int) m d * 86400) := by
    simp only [ParseDateTimeUTC,
      parse_fmtDate y m d (by omega) h9999 hm1 hm2 hd1 hd2, Option.map]
    norm_num
  have hft : date_fromtimestamp tz (mxTicks tz (daysFromCivil (y : Int) m d * 86400)) 1
      = some ⟨y, m, d⟩ := by
    simp only [date_fromtimestamp, mxTicks]
    have e1 : (daysFromCivil (y : Int) m d * 86400 - tz + tz * ((1 : Nat) : Int))
        / ((1 : Nat) : Int) = daysFromCivil (y : Int) m d * 86400 := by
      push_cast; omega
    have e2 : daysFromCivil (y : Int) m d * 86400 / 86400
        = daysFromCivil (y : Int) m d := by omega
    rw [e1, e2, civil_daysFromCivil (y : Int) m d hm1 hm2 hd1 hd2]
    have hcond : (1 : Int) ≤ ((y : Int), m, d).1 ∧ ((y : Int), m, d).1 ≤ 9999 := by
      constructor <;> simp <;> omega
    rw [if_pos hcond]
    simp
  simp only [clean_iso8601_to_date, hcol, hparse, hft]


/-- Claim C1 (amended): on any string whose collapsed form the parser
rejects, `clean_iso8601_to_date` and `clean_iso8601_to_datetime` return the
pair (space-collapsed input, format message); the first component equals the
string the caller passed exactly when that string contains no blank directly
before a `+` or a `-` (which holds in particular for the empty string and
for freeform text such as `today`). -/
theorem C1_unparseable_returns_collapsed :
    ∀ (tz : Int) (s : String),
      ParseDateTimeUTC (collapse s) = Option.none →
      clean_iso8601_to_date tz (.str s)
          = .ok (.str (collapse s), some dateFormatMsg) ∧
      clean_iso8601_to_datetime tz (.str s)
          = .ok (.str (collapse s), some datetimeFormatMsg) ∧
      (hasSpaceBefore '+' s.data = false → hasSpaceBefore '-' s.data = false →
        collapse s = s) := by
  intro tz s hp
  refine ⟨?_, ?_, fun h1 h2 => collapse_eq_self s h1 h2⟩
  · simp only [clean_iso8601_to_date, hp]
  · simp only [clean_iso8601_to_datetime, hp]

/-- Witness for claim C1's amended theorem at the input `today`. -/
theorem C1_witness :
    clean_iso8601_to_date 0 (.str "today")
        = .ok (.str (collapse "today"), some dateFormatMsg) ∧
    collapse "today" = "today" :=
  ⟨(C1_unparseable_returns_collapsed 0 "today" (by decide)).1, by decide⟩

/-- Claim C1 as stated is false: the unparseable input `a -b` comes back
space-collapsed as `a-b`, not verbatim. -/
theorem C1_counterexample :
    clean_iso8601_to_date 0 (.str "a -b")
        = .ok (.str "a-b", some dateFormatMsg) ∧
    clean_iso8601_to_date 0 (.str "a -b")
        ≠ .ok (.str "a -b", some dateFormatMsg) := by
  constructor <;> decide

/-- Claim C2: every converter of the module other than `timestamp_to_date`
and `timestamp_to_datetime` returns the same `(result, error)` pair under
any two local-timezone configurations, for every input value; in particular
`clean_iso8601_to_date` and `clean_iso8601_to_datetime` do not depend on the
local timezone. -/
theorem C2_timezone_independent :
    ∀ (tz1 tz2 : Int) (tzi : Option Int) (v : PyVal),
      clean_iso8601_to_date tz1 v = clean_iso8601_to_date tz2 v ∧
      clean_iso8601_to_datetime tz1 v = clean_iso8601_to_datetime tz2 v ∧
      date_to_datetime tz1 v = date_to_datetime tz2 v ∧
      date_to_iso8601 tz1 v = date_to_iso8601 tz2 v ∧
      date_to_timestamp tz1 v = date_to_timestamp tz2 v ∧
      datetime_to_date tz1 v = datetime_to_date tz2 v ∧
      datetime_to_iso8601 tz1 v = datetime_to_iso8601 tz2 v ∧
      datetime_to_timestamp tz1 v = datetime_to_timestamp tz2 v ∧
      set_datetime_tzinfo tzi tz1 v = set_datetime_tzinfo tzi tz2 v ∧
      iso8601_to_date tz1 v = iso8601_to_date tz2 v ∧
      iso8601_to_datetime tz1 v = iso8601_to_datetime tz2 v := by
  intro tz1 tz2 tzi v
  refine ⟨clean_date_tz tz1 tz2 v, clean_datetime_tz tz1 tz2 v, rfl, rfl, rfl,
    rfl, rfl, by cases v <;> rfl, rfl, ?_, ?_⟩
  · cases v with
    | str s =>
        simp only [iso8601_to_date, pipe2, cleanup_line]
        cases hps : pyStrip s.data with
        | nil => rfl
        | cons a t => exact clean_date_tz tz1 tz2 (.str (String.mk (a :: t)))
    | _ => rfl
  · cases v with
    | str s =>
        simp only [iso8601_to_datetime, pipe2, cleanup_line]
        cases hps : pyStrip s.data with
        | nil => rfl
        | cons a t => exact clean_datetime_tz tz1 tz2 (.str (String.mk (a :: t)))
    | _ => rfl

/-- Claim C3: a trailing UTC offset is subtracted from the time-of-day and
the result is a naive UTC-equivalent datetime, identically for the
space-separated and the concatenated offset forms, whatever the local
timezone. -/
theorem C3_offset_normalization :
    ∀ tz : Int,
      clean_iso8601_to_datetime tz (.str "2012-03-04 05:06:07+01:00")
          = .ok (.datetime ⟨2012, 3, 4, 4, 6, 7, 0, Option.none⟩, Option.none) ∧
      clean_iso8601_to_datetime tz (.str "2012-03-04 05:06:07-02:00")
          = .ok (.datetime ⟨2012, 3, 4, 7, 6, 7, 0, Option.none⟩, Option.none) ∧
      clean_iso8601_to_datetime tz (.str "2012-03-04 05:06:07 +01:00")
          = clean_iso8601_to_datetime tz (.str "2012-03-04 05:06:07+01:00") ∧
      clean_iso8601_to_datetime tz (.str "2012-03-04 05:06:07 -02:00")
          = clean_iso8601_to_datetime tz (.str "2012-03-04 05:06:07-02:00") := by
  intro tz
  simp only [clean_datetime_tz tz 0]
  exact ⟨by decide, by decide, by decide, by decide⟩

/-- Claim C4: `datetime_to_timestamp` delegates any non-datetime (in
particular a bare date) to `date_to_timestamp`; on a datetime it subtracts
the utc offset when one is present and returns epoch seconds times 1000
plus the microseconds floor-divided by 1000; with the two concrete anchors
of the spec. -/
theorem C4_datetime_to_timestamp :
    (∀ (tz : Int) (d : PyDate),
      datetime_to_timestamp tz (.date d) = date_to_timestamp tz (.date d)) ∧
    (∀ (tz : Int) (dt : PyDateTime), dt.tz = Option.none →
      datetime_to_timestamp tz (.datetime dt)
        = .ok (.int (timegmOfDateTime dt * 1000
            + ((dt.microsecond / 1000 : Nat) : Int)), Option.none)) ∧
    (∀ (tz off : Int) (dt : PyDateTime), dt.tz = some off →
      1 ≤ (civilFromSecs (timegmOfDateTime dt - off)).1.1 →
      (civilFromSecs (timegmOfDateTime dt - off)).1.1 ≤ 9999 →
      datetime_to_timestamp tz (.datetime dt)
        = .ok (.int ((timegmOfDateTime dt - off) * 1000
            + ((dt.microsecond / 1000 : Nat) : Int)), Option.none)) ∧
    date_to_timestamp 0 (.date ⟨2012, 3, 4⟩)
      = .ok (.int 1330819200000, Option.none) ∧
    datetime_to_timestamp 0 (.datetime ⟨2012, 3, 4, 5, 6, 7, 0, Option.none⟩)
      = .ok (.int 1330837567000, Option.none) := by
  refine ⟨fun tz d => rfl,
    fun tz dt h => by simp only [datetime_to_timestamp, h],
    ?_, by decide, by decide⟩
  intro tz off dt hoff h1 h2
  have key := timegm_civilFromSecs (timegmOfDateTime dt - off) h1
    dt.microsecond (some off)
  simp only [datetime_to_timestamp, hoff, pyDatetimeSubSeconds]
  rw [if_pos ⟨h1, h2⟩]
  simp only [key]

/-- Witness for claim C4's theorem on an aware datetime with microseconds. -/
theorem C4_witness :
    datetime_to_timestamp 0 (.datetime ⟨2012, 3, 4, 5, 6, 7, 1234, some 3600⟩)
      = .ok (.int ((timegmOfDateTime ⟨2012, 3, 4, 5, 6, 7, 1234, some 3600⟩
          - 3600) * 1000 + ((1234 / 1000 : Nat) : Int)), Option.none) :=
  C4_datetime_to_timestamp.2.2.1 0 3600 ⟨2012, 3, 4, 5, 6, 7, 1234, some 3600⟩
    (by decide) (by decide) (by decide)

/-- Claim C5 (amended): formatting a date of year at least 1900 as
`YYYY-MM-DD` and parsing it back through the trim-then-parse pipeline
returns the original date with no error; for earlier years Python 2's
`strftime` raises a `ValueError` before any string is produced. -/
theorem C5_roundtrip :
    ∀ (tz : Int) (d : PyDate), ValidDate d → 1900 ≤ d.year →
      pipe2 date_to_iso8601 iso8601_to_date tz (.date d)
        = .ok (.date d, Option.none) := by
  intro tz d hv h1900
  obtain ⟨hm1, hm2, hd1, hd2, hy1, hy2⟩ := hv
  simp only [pipe2, date_to_iso8601]
  rw [if_neg (by omega : ¬ d.year < 1900)]
  simp only [iso8601_to_date, pipe2, cleanup_line]
  rw [pyStrip_eq_self _ fun c hc => (fmtDate_no_space _ _ _ c hc).1]
  show clean_iso8601_to_date tz (.str (fmtDate d.year d.month d.day))
    = .ok (.date d, Option.none)
  exact clean_parse_fmtDate tz d.year d.month d.day h1900 hy2 hm1 hm2 hd1 hd2

/-- Witness for claim C5's amended round trip. -/
theorem C5_witness :
    pipe2 date_to_iso8601 iso8601_to_date 0 (.date ⟨2012, 3, 4⟩)
      = .ok (.date ⟨2012, 3, 4⟩, Option.none) :=
  C5_roundtrip 0 ⟨2012, 3, 4⟩
    ⟨by decide, by decide, by decide, by decide, by decide, by decide⟩
    (by decide)

/-- Claim C5 as stated is false: for a date before 1900 the composition
raises (Python 2 `strftime` rejects the year) instead of returning the
date. -/
theorem C5_counterexample :
    pipe2 date_to_iso8601 iso8601_to_date 0 (.date ⟨1899, 12, 31⟩)
        = .error .valueError ∧
    pipe2 date_to_iso8601 iso8601_to_date 0 (.date ⟨1899, 12, 31⟩)
        ≠ .ok (.date ⟨1899, 12, 31⟩, Option.none) := by
  constructor <;> decide

/-- Claim C6: every converter of the module maps `None` to
`(None, no-error)`. -/
theorem C6_null_propagation :
    ∀ (tz : Int) (tzi : Option Int),
      clean_iso8601_to_date tz .none = .ok (.none, Option.none) ∧
      clean_iso8601_to_datetime tz .none = .ok (.none, Option.none) ∧
      date_to_datetime tz .none = .ok (.none, Option.none) ∧
      date_to_iso8601 tz .none = .ok (.none, Option.none) ∧
      date_to_timestamp tz .none = .ok (.none, Option.none) ∧
      datetime_to_date tz .none = .ok (.none, Option.none) ∧
      datetime_to_iso8601 tz .none = .ok (.none, Option.none) ∧
      datetime_to_timestamp tz .none = .ok (.none, Option.none) ∧
      set_datetime_tzinfo tzi tz .none = .ok (.none, Option.none) ∧
      timestamp_to_date tz .none = .ok (.none, Option.none) ∧
      timestamp_to_datetime tz .none = .ok (.none, Option.none) ∧
      iso8601_to_date tz .none = .ok (.none, Option.none) ∧
      iso8601_to_datetime tz .none = .ok (.none, Option.none) :=
  fun tz tzi => ⟨rfl, rfl, rfl, rfl, rfl, rfl, rfl, rfl, rfl, rfl, rfl,
    rfl, rfl⟩

/-- Claim C7: the timestamp converters never raise on numeric input; when
the date library rejects the value they return the pair (original value,
timestamp message); a string input raises a `TypeError` at the division. -/
theorem C7_timestamp_errors :
    (∀ (tz n : Int), ∃ r, timestamp_to_date tz (.int n) = .ok r) ∧
    (∀ (tz : Int) (q : Rat), ∃ r, timestamp_to_date tz (.float q) = .ok r) ∧
    (∀ (tz n : Int), ∃ r, timestamp_to_datetime tz (.int n) = .ok r) ∧
    (∀ (tz : Int) (q : Rat), ∃ r, timestamp_to_datetime tz (.float q) = .ok r) ∧
    (∀ (tz n : Int), date_fromtimestamp tz (n / 1000) 1 = Option.none →
      timestamp_to_date tz (.int n) = .ok (.int n, some timestampMsg)) ∧
    (∀ (tz n : Int), datetime_fromtimestamp tz (n / 1000) 1 = Option.none →
      timestamp_to_datetime tz (.int n) = .ok (.int n, some timestampMsg)) ∧
    (∀ (tz : Int) (q : Rat),
      date_fromtimestamp tz q.num (q.den * 1000) = Option.none →
      timestamp_to_date tz (.float q) = .ok (.float q, some timestampMsg)) ∧
    (∀ (tz : Int) (s : String),
      timestamp_to_date tz (.str s) = .error .typeError ∧
      timestamp_to_datetime tz (.str s) = .error .typeError) := by
  refine ⟨?_, ?_, ?_, ?_, ?_, ?_, ?_, fun tz s => ⟨rfl, rfl⟩⟩
  · intro tz n
    cases h : date_fromtimestamp tz (n / 1000) 1 with
    | none =>
        exact ⟨(.int n, some timestampMsg), by simp only [timestamp_to_date, h]⟩
    | some dd =>
        exact ⟨(.date dd, Option.none), by simp only [timestamp_to_date, h]⟩
  · intro tz q
    cases h : date_fromtimestamp tz q.num (q.den * 1000) with
    | none =>
        exact ⟨(.float q, some timestampMsg),
          by simp only [timestamp_to_date, h]⟩
    | some dd =>
        exact ⟨(.date dd, Option.none), by simp only [timestamp_to_date, h]⟩
  · intro tz n
    cases h : datetime_fromtimestamp tz (n / 1000) 1 with
    | none =>
        exact ⟨(.int n, some timestampMsg),
          by simp only [timestamp_to_datetime, h]⟩
    | some dt =>
        exact ⟨(.datetime dt, Option.none),
          by simp only [timestamp_to_datetime, h]⟩
  · intro tz q
    cases h : datetime_fromtimestamp tz q.num (q.den * 1000) with
    | none =>
        exact ⟨(.float q, some timestampMsg),
          by simp only [timestamp_to_datetime, h]⟩
    | some dt =>
        exact ⟨(.datetime dt, Option.none),
          by simp only [timestamp_to_datetime, h]⟩
  · intro tz n h
    simp only [timestamp_to_date, h]
  · intro tz n h
    simp only [timestamp_to_datetime, h]
  · intro tz q h
    simp only [timestamp_to_date, h]

/-- Witness for claim C7's theorem: an out-of-range numeric timestamp gets
the validation pair. -/
theorem C7_witness :
    timestamp_to_date 0 (.int 1000000000000000000000)
      = .ok (.int 1000000000000000000000, some timestampMsg) :=
  C7_timestamp_errors.2.2.2.2.1 0 1000000000000000000000 (by decide)

/-- Claim C8: `datetime_to_date` returns the calendar part of a datetime
with no error, and raises an `AttributeError` on a bare date. -/
theorem C8_datetime_to_date :
    (∀ (tz : Int) (dt : PyDateTime),
      datetime_to_date tz (.datetime dt)
        = .ok (.date ⟨dt.year, dt.month, dt.day⟩, Option.none)) ∧
    (∀ (tz : Int) (d : PyDate),
      datetime_to_date tz (.date d) = .error .attributeError) :=
  ⟨fun tz dt => rfl, fun tz d => rfl⟩

/-- Claim C9: a string made only of whitespace (including the empty string)
goes through both pipelines as `(None, no-error)`: the trim stage maps it to
`None`, which the parse stage passes through. -/
theorem C9_blank_to_none :
    ∀ (tz : Int) (s : String), (∀ c ∈ s.data, isPySpace c = true) →
      iso8601_to_date tz (.str s) = .ok (.none, Option.none) ∧
      iso8601_to_datetime tz (.str s) = .ok (.none, Option.none) := by
  intro tz s h
  constructor
  · simp only [iso8601_to_date, pipe2, cleanup_line]
    rw [pyStrip_all_space s.data h]
    rfl
  · simp only [iso8601_to_datetime, pipe2, cleanup_line]
    rw [pyStrip_all_space s.data h]
    rfl

/-- Witness for claim C9's theorem at a three-blank string. -/
theorem C9_witness :
    iso8601_to_date 0 (.str "   ") = .ok (.none, Option.none) :=
  (C9_blank_to_none 0 "   " (by decide)).1

/-- Claim C10: the collapsing of blanks before `+` and `-` happens anywhere
in the input, so a converter's outcome on any string is its outcome on the
fully collapsed string; in particular `2012 -03-04` parses to the same date
as `2012-03-04`. -/
theorem C10_collapse_anywhere :
    (∀ (tz : Int) (s : String),
      clean_iso8601_to_date tz (.str s)
          = clean_iso8601_to_date tz (.str (collapse s)) ∧
      clean_iso8601_to_datetime tz (.str s)
          = clean_iso8601_to_datetime tz (.str (collapse s))) ∧
    clean_iso8601_to_date 0 (.str "2012 -03-04")
        = .ok (.date ⟨2012, 3, 4⟩, Option.none) ∧
    clean_iso8601_to_date 0 (.str "2012-03-04")
        = .ok (.date ⟨2012, 3, 4⟩, Option.none) := by
  refine ⟨fun tz s => ⟨?_, ?_⟩, by decide, by decide⟩
  · simp only [clean_iso8601_to_date, collapse_idem]
  · simp only [clean_iso8601_to_datetime, collapse_idem]

end DatetimeConv
